import Mathlib

/-!
Verification development for the arena-clash game client, covering the
transport layer (Network.ts) and the client-side prediction and
reconciliation engine (Game.ts).

The embedding below mirrors the source functions directly:
- `sendThrottledStep` / `throttleRun` embed `Network.sendThrottled`;
- `backoffStep` / `backoffRun` embed the reconnect logic in
  `Network.connect` (the onopen and onclose callbacks);
- `handleStateMsg`, `handlePlayerLeft`, `updateCleanup` embed the entity
  bookkeeping in `Game.setupNetworkHandlers` and `Game.update`;
- `moveStep`, `clampArena`, `predictXZ`, `predictY`, `consumeJumpStep`,
  `updateTick` embed the per-tick prediction in `Game.update`;
- `reconcileWithServer` embeds `Game.reconcileWithServer`.

Numbers that the client manipulates (positions, velocities, durations)
are embedded as real numbers; millisecond timestamps for the throttle as
rationals; backoff delays as naturals.
-/

namespace ArenaClash

/-! ### Transport: outbound throttle (Network.sendThrottled) -/

/-- Embeds `Network.MIN_SEND_INTERVAL = 16` (milliseconds). -/
def MIN_SEND_INTERVAL : ℚ := 16

/-- Embeds one call of `Network.sendThrottled`. The state is the field
`lastSendTime` paired with the list of timestamps at which a message was
actually transmitted (calls where the guard fails change nothing: the
message is dropped, not queued). `now` is the value of the monotonic
clock `performance.now()` at the call. -/
def sendThrottledStep (st : ℚ × List ℚ) (now : ℚ) : ℚ × List ℚ :=
  if MIN_SEND_INTERVAL ≤ now - st.1 then (now, st.2 ++ [now]) else st

/-- Runs a sequence of `sendThrottled` calls (one clock value per call)
from the initial state `lastSendTime = 0` (field initializer in
`Network`), no transmissions yet. -/
def throttleRun (calls : List ℚ) : ℚ × List ℚ :=
  calls.foldl sendThrottledStep (0, [])

/-! ### Transport: reconnect backoff (Network.connect) -/

/-- Events seen by the connection state machine: a successful open of the
link (the `onopen` callback) or a closure (the `onclose` callback; the
`onerror` callback is normalized to a closure by calling `close`). -/
inductive NetEvent where
  | opened : NetEvent
  | closed : NetEvent
deriving DecidableEq, Repr

/-- Embeds the mutation of `reconnectDelay` (milliseconds) performed by
the `onopen` and `onclose` callbacks in `Network.connect`, together with
the reconnect delay that `onclose` passes to `setTimeout` (the delay in
force before doubling). `onopen` resets the delay to 1000; `onclose`
schedules a reconnect after the current delay and then doubles it,
capped at 10000. -/
def backoffStep (d : ℕ) : NetEvent → ℕ × Option ℕ
  | NetEvent.opened => (1000, none)
  | NetEvent.closed => (min (d * 2) 10000, some d)

/-- Runs the connection state machine over a list of events from the
field initializer `reconnectDelay = 1000`, returning the final delay. -/
def backoffRun (evs : List NetEvent) : ℕ :=
  evs.foldl (fun d e => (backoffStep d e).1) 1000

/-- Reconnect delay scheduled by the last event, when that event is a
closure. -/
def backoffScheduled (evs : List NetEvent) (e : NetEvent) : Option ℕ :=
  (backoffStep (backoffRun evs) e).2

/-! ### Entity tracking (Game.setupNetworkHandlers, Game.update) -/

/-- Inserts a key into a list modelling the key set of a JS `Map`
(`players` / `serverStates` in `Game`): a no-op when present. -/
def mapInsert (m : List String) (id : String) : List String :=
  if id ∈ m then m else m ++ [id]

/-- The entity-tracking slice of the `Game` state: the key set of the
`players` map (tracked entities) and of the `serverStates` map (latest
cached snapshot per id). -/
structure Tracking where
  players : List String
  serverStates : List String
deriving DecidableEq, Repr

/-- Embeds the `state` handler in `Game.setupNetworkHandlers` restricted
to entity bookkeeping: for each player in the broadcast it performs
`serverStates.set(ps.id, ps)`. Ids absent from the broadcast are left
untouched: the handler never deletes cache entries. -/
def handleStateMsg (t : Tracking) (ids : List String) : Tracking :=
  { t with serverStates := ids.foldl mapInsert t.serverStates }

/-- Embeds the `playerLeft` handler: `removePlayerEntity(msg.id)`, which
deletes the entity and the cached server state for that id. -/
def handlePlayerLeft (t : Tracking) (id : String) : Tracking :=
  { players := t.players.filter (fun p => p ≠ id),
    serverStates := t.serverStates.filter (fun p => p ≠ id) }

/-- Embeds the entity maintenance in `Game.update`: first the loop over
`serverStates` creates an entity for every cached id that lacks one
(`addPlayerEntity`), then the cleanup loop removes every entity whose id
has no cached server state (`removePlayerEntity`; its deletion from
`serverStates` is a no-op there since the id is already absent). -/
def updateCleanup (t : Tracking) : Tracking :=
  { players := (t.serverStates.foldl mapInsert t.players).filter
      (fun p => p ∈ t.serverStates),
    serverStates := t.serverStates }

/-- Processes one `state` broadcast followed by one render tick. -/
def broadcastThenTick (t : Tracking) (ids : List String) : Tracking :=
  updateCleanup (handleStateMsg t ids)

/-! ### Prediction engine (Game.ts) -/

/-- Embeds the constant `PLAYER_SPEED = 8` in Game.ts. -/
def PLAYER_SPEED : ℝ := 8

/-- Embeds the constant `GRAVITY = 16` in Game.ts. -/
def GRAVITY : ℝ := 16

/-- Embeds the constant `JUMP_VELOCITY = 8.5` in Game.ts. -/
def JUMP_VELOCITY : ℝ := 8.5

/-- Embeds the `InputRecord` interface in Game.ts: one sampled tick of
local input, retained in the pending-input queue until acknowledged. -/
structure InputRecord where
  seq : ℕ
  forward : ℝ
  right : ℝ
  rotation : ℝ
  dt : ℝ

/-- The fields of the `PlayerState` snapshot (types.ts) that the
prediction engine reads: authoritative position, action tag, and the
highest input sequence number the server has consumed. The remaining
fields (health, stamina, counters, name) are not touched by the
prediction or reconciliation code and are omitted. -/
structure ServerPlayerState where
  x : ℝ
  y : ℝ
  z : ℝ
  action : String
  lastSeq : ℕ

/-- The prediction-state slice of `Game`: speculative position, vertical
velocity, the pending-input queue and the input sequence counter. -/
structure PredState where
  predictedX : ℝ
  predictedZ : ℝ
  predictedY : ℝ
  predictedYVel : ℝ
  pendingInputs : List InputRecord
  inputSeq : ℕ

/-- Embeds the arena clamp in `Game.update` and
`Game.reconcileWithServer`: when the horizontal distance from the origin
exceeds `arenaRadius - 1`, the position is scaled back onto that
circle. -/
noncomputable def clampArena (arenaRadius : ℝ) (p : ℝ × ℝ) : ℝ × ℝ :=
  let dist := Real.sqrt (p.1 * p.1 + p.2 * p.2)
  if arenaRadius - 1 < dist then
    (p.1 * ((arenaRadius - 1) / dist), p.2 * ((arenaRadius - 1) / dist))
  else p

/-- Embeds the movement-plus-clamp formula shared verbatim between the
per-tick prediction in `Game.update` and the replay loop in
`Game.reconcileWithServer`: rotate the 2-axis input into world space by
the facing angle, normalize when its magnitude exceeds 1, scale by
`PLAYER_SPEED`, the blocking modifier `0.55` and the tick duration, add
to the position, then clamp to the arena. -/
noncomputable def moveStep (arenaRadius : ℝ) (action : String)
    (forward right rotation dt : ℝ) (p : ℝ × ℝ) : ℝ × ℝ :=
  let s := Real.sin rotation
  let c := Real.cos rotation
  let dx0 := right * c - forward * s
  let dz0 := right * s - forward * c
  let len := Real.sqrt (dx0 * dx0 + dz0 * dz0)
  let dx := if 1 < len then dx0 / len else dx0
  let dz := if 1 < len then dz0 / len else dz0
  let speedMul : ℝ := if action = "blocking" then 0.55 else 1
  clampArena arenaRadius
    (p.1 + dx * PLAYER_SPEED * speedMul * dt,
     p.2 + dz * PLAYER_SPEED * speedMul * dt)

/-- Embeds the guarded horizontal prediction in `Game.update`: movement
is applied only when the last authoritative action is neither
`"attacking"` nor `"dodging"` (`canMove`) and the sampled movement
vector is non-zero. -/
noncomputable def predictXZ (arenaRadius : ℝ) (action : String)
    (forward right rotation dt : ℝ) (p : ℝ × ℝ) : ℝ × ℝ :=
  if (action ≠ "attacking" ∧ action ≠ "dodging") ∧
      (forward ≠ 0 ∨ right ≠ 0) then
    moveStep arenaRadius action forward right rotation dt p
  else p

/-- Embeds the vertical prediction in `Game.update`: while airborne or
rising, integrate gravity over the tick; on touching the ground, snap to
0 and zero the vertical velocity. -/
noncomputable def predictY (dt : ℝ) (yv : ℝ × ℝ) : ℝ × ℝ :=
  if 0 < yv.1 ∨ 0 < yv.2 then
    let v := yv.2 - GRAVITY * dt
    let y := yv.1 + v * dt
    if y ≤ 0 then (0, 0) else (y, v)
  else yv

/-- Embeds the queue trim in `Game.update`: after pushing the new input
record, keep only the last 120 entries (`slice(-120)`). -/
def trimPending (l : List InputRecord) : List InputRecord :=
  if 120 < l.length then l.drop (l.length - 120) else l

/-- Embeds the jump branch of the action handling in `Game.update`: when
a jump press is consumed, the `jump` message is sent unconditionally
(the returned flag), and when the player is grounded
(`predictedY ≤ 0.001`) the upward jump velocity is applied instantly and
the position nudged epsilon above ground. -/
noncomputable def consumeJumpStep (st : PredState) : PredState × Bool :=
  if st.predictedY ≤ 0.001 then
    ({ st with predictedYVel := JUMP_VELOCITY, predictedY := 0.001 }, true)
  else (st, true)

/-- Embeds one full prediction tick of `Game.update` for the local
player: horizontal prediction, vertical prediction, sequence-number
allocation with queue append and trim, then the jump intent when one was
consumed this tick. The flag reports whether a `jump` message was
sent. -/
noncomputable def updateTick (arenaRadius : ℝ) (action : String)
    (forward right rotation dt : ℝ) (jump : Bool) (st : PredState) :
    PredState × Bool :=
  let xz := predictXZ arenaRadius action forward right rotation dt
    (st.predictedX, st.predictedZ)
  let yv := predictY dt (st.predictedY, st.predictedYVel)
  let seq := st.inputSeq + 1
  let pending := trimPending
    (st.pendingInputs ++ [⟨seq, forward, right, rotation, dt⟩])
  let st1 : PredState :=
    { predictedX := xz.1, predictedZ := xz.2, predictedY := yv.1,
      predictedYVel := yv.2, pendingInputs := pending, inputSeq := seq }
  if jump then consumeJumpStep st1 else (st1, false)

/-- Embeds `Game.reconcileWithServer`: drop every pending input the
server has consumed (`seq ≤ lastSeq`), reset the horizontal baseline to
the authoritative snapshot position, snap the vertical position to the
snapshot only when the predicted vertical velocity is zero, and, when
the authoritative action permits movement, replay the surviving inputs
in order with the movement-plus-clamp formula, each with its own stored
facing and duration. -/
noncomputable def reconcileWithServer (arenaRadius : ℝ) (st : PredState)
    (server : ServerPlayerState) : PredState :=
  let pending := st.pendingInputs.filter (fun i => server.lastSeq < i.seq)
  let y := if st.predictedYVel = 0 then server.y else st.predictedY
  let xz :=
    if server.action ≠ "attacking" ∧ server.action ≠ "dodging" then
      pending.foldl
        (fun p i => moveStep arenaRadius server.action
          i.forward i.right i.rotation i.dt p)
        (server.x, server.z)
    else (server.x, server.z)
  { st with predictedX := xz.1, predictedZ := xz.2, predictedY := y,
            pendingInputs := pending }

/-- Embeds the respawn handler in `Game.setupNetworkHandlers` restricted
to prediction state: hard-reset the predicted pose to the respawn
position and clear the pending-input queue. -/
def respawnReset (st : PredState) (x z : ℝ) : PredState :=
  { st with predictedX := x, predictedZ := z, predictedY := 0,
            predictedYVel := 0, pendingInputs := [] }

/-- Horizontal arena-bound predicate shared by the claims: the distance
from the origin on the horizontal plane is at most `arenaRadius - 1`. -/
noncomputable def inArenaBound (arenaRadius x z : ℝ) : Prop :=
  Real.sqrt (x * x + z * z) ≤ arenaRadius - 1

/-! ### Unfolding lemmas for `reconcileWithServer` -/

/-- Queue component of reconciliation: the filter on sequence numbers. -/
theorem reconcile_pending_eq (R : ℝ) (st : PredState)
    (sv : ServerPlayerState) :
    (reconcileWithServer R st sv).pendingInputs
      = st.pendingInputs.filter (fun i => sv.lastSeq < i.seq) := rfl

/-- Reconciliation never touches the predicted vertical velocity. -/
theorem reconcile_yVel_eq (R : ℝ) (st : PredState)
    (sv : ServerPlayerState) :
    (reconcileWithServer R st sv).predictedYVel = st.predictedYVel := rfl

/-- Reconciliation never touches the input sequence counter. -/
theorem reconcile_inputSeq_eq (R : ℝ) (st : PredState)
    (sv : ServerPlayerState) :
    (reconcileWithServer R st sv).inputSeq = st.inputSeq := rfl

/-- Vertical component of reconciliation: snap to the authoritative y
exactly when the predicted vertical velocity is zero. -/
theorem reconcile_y_eq (R : ℝ) (st : PredState) (sv : ServerPlayerState) :
    (reconcileWithServer R st sv).predictedY
      = if st.predictedYVel = 0 then sv.y else st.predictedY := rfl

/-- Horizontal x component of reconciliation: authoritative baseline,
then replay of the surviving queue when movement is permitted. -/
theorem reconcile_x_eq (R : ℝ) (st : PredState) (sv : ServerPlayerState) :
    (reconcileWithServer R st sv).predictedX
      = (if sv.action ≠ "attacking" ∧ sv.action ≠ "dodging" then
          (st.pendingInputs.filter (fun i => sv.lastSeq < i.seq)).foldl
            (fun p i => moveStep R sv.action
              i.forward i.right i.rotation i.dt p)
            (sv.x, sv.z)
        else (sv.x, sv.z)).1 := rfl

/-- Horizontal z component of reconciliation. -/
theorem reconcile_z_eq (R : ℝ) (st : PredState) (sv : ServerPlayerState) :
    (reconcileWithServer R st sv).predictedZ
      = (if sv.action ≠ "attacking" ∧ sv.action ≠ "dodging" then
          (st.pendingInputs.filter (fun i => sv.lastSeq < i.seq)).foldl
            (fun p i => moveStep R sv.action
              i.forward i.right i.rotation i.dt p)
            (sv.x, sv.z)
        else (sv.x, sv.z)).2 := rfl

/-- Filtering twice with the same predicate equals filtering once. -/
theorem filter_self_idem {α : Type} (p : α → Bool) (l : List α) :
    (l.filter p).filter p = l.filter p := by
  induction l with
  | nil => rfl
  | cons a l ih =>
    cases hpa : p a with
    | true => simp [List.filter_cons, hpa, ih]
    | false => simp [List.filter_cons, hpa, ih]

/-! ### C1: the queue after reconciliation -/

/-- C1: after `reconcileWithServer` returns, every record remaining in
the pending-input queue has a sequence number strictly greater than the
`lastSeq` of the processed snapshot; every record with `seq ≤ lastSeq`
has been discarded. -/
theorem reconcile_pending_gt_lastSeq (R : ℝ) (st : PredState)
    (sv : ServerPlayerState) (r : InputRecord)
    (hr : r ∈ (reconcileWithServer R st sv).pendingInputs) :
    sv.lastSeq < r.seq := by
  rw [reconcile_pending_eq] at hr
  simpa using (List.mem_filter.mp hr).2

/-- Witness for C1: a snapshot with `lastSeq = 5` against a queue holding
records 3 and 7 leaves record 7 in the queue, and its sequence number
exceeds 5. -/
theorem reconcile_pending_gt_lastSeq_witness :
    ((⟨7, 0, 0, 0, 0⟩ : InputRecord) ∈
      (reconcileWithServer 30
        ⟨0, 0, 0, 0, [⟨3, 0, 0, 0, 0⟩, ⟨7, 0, 0, 0, 0⟩], 7⟩
        ⟨0, 0, 0, "idle", 5⟩).pendingInputs)
    ∧ 5 < 7 := by
  have hmem : (⟨7, 0, 0, 0, 0⟩ : InputRecord) ∈
      (reconcileWithServer 30
        ⟨0, 0, 0, 0, [⟨3, 0, 0, 0, 0⟩, ⟨7, 0, 0, 0, 0⟩], 7⟩
        ⟨0, 0, 0, "idle", 5⟩).pendingInputs := by
    rw [reconcile_pending_eq]
    simp [List.filter]
  exact ⟨hmem, reconcile_pending_gt_lastSeq 30 _ _ _ hmem⟩

/-! ### C3: vertical snap during reconciliation -/

/-- C3: reconciliation resets the predicted vertical position to the
snapshot y precisely when the predicted vertical velocity is zero; with
non-zero vertical velocity (mid-jump) the predicted y is left
unchanged. -/
theorem reconcile_y_snap_iff (R : ℝ) (st : PredState)
    (sv : ServerPlayerState) :
    (st.predictedYVel = 0 →
      (reconcileWithServer R st sv).predictedY = sv.y)
    ∧ (st.predictedYVel ≠ 0 →
      (reconcileWithServer R st sv).predictedY = st.predictedY) := by
  constructor
  · intro h
    rw [reconcile_y_eq, if_pos h]
  · intro h
    rw [reconcile_y_eq, if_neg h]

/-- Witness for C3: a local player mid-jump (vertical velocity 1) keeps
its predicted height 5 across a reconciliation whose snapshot says 3. -/
theorem reconcile_y_snap_iff_witness :
    ((1 : ℝ) ≠ 0)
    ∧ (reconcileWithServer 30 ⟨0, 0, 5, 1, [], 0⟩
        ⟨2, 3, 4, "idle", 0⟩).predictedY = 5 :=
  ⟨one_ne_zero,
    (reconcile_y_snap_iff 30 ⟨0, 0, 5, 1, [], 0⟩
      ⟨2, 3, 4, "idle", 0⟩).2 one_ne_zero⟩

/-! ### C4: reconciliation is idempotent -/

/-- C4: running `reconcileWithServer` twice in a row against the same
snapshot, with no new inputs appended in between, yields the same
predicted position (x, y, z) as running it once. -/
theorem reconcile_idempotent (R : ℝ) (st : PredState)
    (sv : ServerPlayerState) :
    (reconcileWithServer R (reconcileWithServer R st sv) sv).predictedX
        = (reconcileWithServer R st sv).predictedX
    ∧ (reconcileWithServer R (reconcileWithServer R st sv) sv).predictedY
        = (reconcileWithServer R st sv).predictedY
    ∧ (reconcileWithServer R (reconcileWithServer R st sv) sv).predictedZ
        = (reconcileWithServer R st sv).predictedZ := by
  refine ⟨?_, ?_, ?_⟩
  · rw [reconcile_x_eq, reconcile_x_eq, reconcile_pending_eq,
      filter_self_idem]
  · rw [reconcile_y_eq, reconcile_y_eq, reconcile_yVel_eq]
    by_cases h : st.predictedYVel = 0
    · rw [if_pos h, if_pos h]
    · rw [if_neg h, if_neg h]
  · rw [reconcile_z_eq, reconcile_z_eq, reconcile_pending_eq,
      filter_self_idem]

/-! ### C5: commit actions lock translation -/

/-- Jump handling never moves the player horizontally. -/
theorem consumeJumpStep_xz (st : PredState) :
    (consumeJumpStep st).1.predictedX = st.predictedX
    ∧ (consumeJumpStep st).1.predictedZ = st.predictedZ := by
  unfold consumeJumpStep
  by_cases h : st.predictedY ≤ 0.001
  · rw [if_pos h]; exact ⟨rfl, rfl⟩
  · rw [if_neg h]; exact ⟨rfl, rfl⟩

/-- Horizontal components of a full prediction tick come from
`predictXZ` alone. -/
theorem updateTick_xz (R : ℝ) (action : String)
    (forward right rotation dt : ℝ) (jump : Bool) (st : PredState) :
    (updateTick R action forward right rotation dt jump st).1.predictedX
      = (predictXZ R action forward right rotation dt
          (st.predictedX, st.predictedZ)).1
    ∧ (updateTick R action forward right rotation dt jump st).1.predictedZ
      = (predictXZ R action forward right rotation dt
          (st.predictedX, st.predictedZ)).2 := by
  unfold updateTick
  cases jump with
  | false => exact ⟨rfl, rfl⟩
  | true => exact consumeJumpStep_xz _

/-- Guarded prediction is the identity during a commit action. -/
theorem predictXZ_commit (R : ℝ) (action : String)
    (forward right rotation dt : ℝ) (p : ℝ × ℝ)
    (ha : action = "attacking" ∨ action = "dodging") :
    predictXZ R action forward right rotation dt p = p := by
  unfold predictXZ
  rw [if_neg]
  intro hcond
  rcases ha with h | h
  · exact hcond.1.1 h
  · exact hcond.1.2 h

/-- C5: while the authoritative action tag is a commit action
(`"attacking"` or `"dodging"`), a prediction tick leaves the predicted
horizontal position unchanged, and reconciliation replay applies no
translation: the result is exactly the snapshot baseline. -/
theorem commit_action_locks_position (R : ℝ) (action : String)
    (forward right rotation dt : ℝ) (jump : Bool) (st : PredState)
    (sv : ServerPlayerState)
    (ha : action = "attacking" ∨ action = "dodging")
    (hs : sv.action = "attacking" ∨ sv.action = "dodging") :
    ((updateTick R action forward right rotation dt jump st).1.predictedX
        = st.predictedX
      ∧ (updateTick R action forward right rotation dt jump
          st).1.predictedZ = st.predictedZ)
    ∧ ((reconcileWithServer R st sv).predictedX = sv.x
      ∧ (reconcileWithServer R st sv).predictedZ = sv.z) := by
  have hnc : ¬(sv.action ≠ "attacking" ∧ sv.action ≠ "dodging") := by
    intro hcond
    rcases hs with h | h
    · exact hcond.1 h
    · exact hcond.2 h
  refine ⟨⟨?_, ?_⟩, ?_, ?_⟩
  · rw [(updateTick_xz R action forward right rotation dt jump st).1,
      predictXZ_commit R action forward right rotation dt _ ha]
  · rw [(updateTick_xz R action forward right rotation dt jump st).2,
      predictXZ_commit R action forward right rotation dt _ ha]
  · rw [reconcile_x_eq, if_neg hnc]
  · rw [reconcile_z_eq, if_neg hnc]

/-- Witness for C5: with the local tag `"attacking"` a tick from
position (2, 3) stays at (2, 3); with a `"dodging"` snapshot at (4, 6),
reconciliation lands exactly on (4, 6). -/
theorem commit_action_locks_position_witness :
    (("attacking" : String) = "attacking"
      ∨ ("attacking" : String) = "dodging")
    ∧ (("dodging" : String) = "attacking"
      ∨ ("dodging" : String) = "dodging")
    ∧ (((updateTick 30 "attacking" 1 0 0 (1/10) false
          ⟨2, 3, 0, 0, [], 0⟩).1.predictedX = 2
        ∧ (updateTick 30 "attacking" 1 0 0 (1/10) false
          ⟨2, 3, 0, 0, [], 0⟩).1.predictedZ = 3)
      ∧ ((reconcileWithServer 30 ⟨2, 3, 0, 0, [], 0⟩
          ⟨4, 5, 6, "dodging", 7⟩).predictedX = 4
        ∧ (reconcileWithServer 30 ⟨2, 3, 0, 0, [], 0⟩
          ⟨4, 5, 6, "dodging", 7⟩).predictedZ = 6)) :=
  ⟨Or.inl rfl, Or.inr rfl,
    commit_action_locks_position 30 "attacking" 1 0 0 (1/10) false
      ⟨2, 3, 0, 0, [], 0⟩ ⟨4, 5, 6, "dodging", 7⟩
      (Or.inl rfl) (Or.inr rfl)⟩

/-! ### C7: reconnect backoff -/

/-- C7: across any run of the connection state machine the reconnect
delay stays within [1000, 10000]; a closure never decreases it, a
successful open resets it to the 1000 ms floor (and only an open can:
after a closure it is strictly above the floor), and each closure
schedules the next connect after the delay in force before doubling. -/
theorem backoff_invariant (evs : List NetEvent) :
    (1000 ≤ backoffRun evs ∧ backoffRun evs ≤ 10000)
    ∧ backoffRun evs ≤ backoffRun (evs ++ [NetEvent.closed])
    ∧ backoffRun (evs ++ [NetEvent.opened]) = 1000
    ∧ 1000 < backoffRun (evs ++ [NetEvent.closed])
    ∧ backoffScheduled evs NetEvent.closed = some (backoffRun evs) := by
  have key : ∀ (l : List NetEvent) (d : ℕ), 1000 ≤ d → d ≤ 10000 →
      1000 ≤ l.foldl (fun d e => (backoffStep d e).1) d
      ∧ l.foldl (fun d e => (backoffStep d e).1) d ≤ 10000 := by
    intro l
    induction l with
    | nil => intro d h1 h2; exact ⟨h1, h2⟩
    | cons e l ih =>
      intro d h1 h2
      cases e with
      | opened => exact ih 1000 le_rfl (by norm_num)
      | closed =>
        refine ih (min (d * 2) 10000) ?_ (min_le_right _ _)
        exact le_min (by omega) (by norm_num)
  have hbounds : 1000 ≤ backoffRun evs ∧ backoffRun evs ≤ 10000 :=
    key evs 1000 le_rfl (by norm_num)
  have happ : ∀ e : NetEvent,
      backoffRun (evs ++ [e]) = (backoffStep (backoffRun evs) e).1 := by
    intro e
    unfold backoffRun
    rw [List.foldl_append]
    rfl
  refine ⟨hbounds, ?_, ?_, ?_, rfl⟩
  · rw [happ NetEvent.closed]
    show backoffRun evs ≤ min (backoffRun evs * 2) 10000
    exact le_min (by omega) hbounds.2
  · rw [happ NetEvent.opened]
    rfl
  · rw [happ NetEvent.closed]
    show 1000 < min (backoffRun evs * 2) 10000
    have := hbounds.1
    omega

/-! ### C9: entity teardown -/

/-- Membership in a map key set survives further insertions. -/
theorem mem_foldl_mapInsert (ids : List String) (m : List String)
    (x : String) (hx : x ∈ m) : x ∈ ids.foldl mapInsert m := by
  induction ids generalizing m with
  | nil => exact hx
  | cons i ids ih =>
    refine ih (mapInsert m i) ?_
    unfold mapInsert
    by_cases h : i ∈ m
    · rw [if_pos h]; exact hx
    · rw [if_neg h]; exact List.mem_append_left _ hx

/-- Counterexample to C9 as stated: a tracked entity `"A"` that is
absent from two consecutive `state` broadcasts (each listing only
`"B"`), with a render tick after each, is still tracked afterwards: the
`state` handler only inserts into the snapshot cache and never deletes,
so the cleanup loop keeps the entity alive indefinitely. -/
theorem stale_entity_not_torn_down :
    "A" ∈ (broadcastThenTick
      (broadcastThenTick ⟨["A"], ["A"]⟩ ["B"]) ["B"]).players := by
  decide

/-- C9 amended: a tracked entity is torn down exactly by a `playerLeft`
message for its id (which removes both the entity and its cached
snapshot); `state` broadcasts never remove entities — an entity with a
cached snapshot survives any broadcast-plus-tick, whether or not the
broadcast mentions it. -/
theorem entity_teardown_via_playerLeft (t : Tracking) (id : String)
    (ids : List String) (hp : id ∈ t.players)
    (hs : id ∈ t.serverStates) :
    id ∉ (handlePlayerLeft t id).players
    ∧ id ∉ (handlePlayerLeft t id).serverStates
    ∧ (handleStateMsg t ids).players = t.players
    ∧ id ∈ (broadcastThenTick t ids).players := by
  refine ⟨?_, ?_, rfl, ?_⟩
  · intro hmem
    have := (List.mem_filter.mp hmem).2
    simp at this
  · intro hmem
    have := (List.mem_filter.mp hmem).2
    simp at this
  · show id ∈ (updateCleanup (handleStateMsg t ids)).players
    unfold updateCleanup
    refine List.mem_filter.mpr ⟨?_, ?_⟩
    · exact mem_foldl_mapInsert _ _ _ hp
    · show decide (id ∈ (handleStateMsg t ids).serverStates) = true
      simpa using mem_foldl_mapInsert ids t.serverStates id hs

/-- Witness for the amended C9: entity `"A"` tracked with a cached
snapshot is removed by `playerLeft` yet kept through a broadcast that
only mentions `"B"`. -/
theorem entity_teardown_via_playerLeft_witness :
    ("A" ∈ (⟨["A"], ["A"]⟩ : Tracking).players)
    ∧ ("A" ∈ (⟨["A"], ["A"]⟩ : Tracking).serverStates)
    ∧ ("A" ∉ (handlePlayerLeft ⟨["A"], ["A"]⟩ "A").players
      ∧ "A" ∉ (handlePlayerLeft ⟨["A"], ["A"]⟩ "A").serverStates
      ∧ (handleStateMsg ⟨["A"], ["A"]⟩ ["B"]).players = ["A"]
      ∧ "A" ∈ (broadcastThenTick ⟨["A"], ["A"]⟩ ["B"]).players) :=
  ⟨by decide, by decide,
    entity_teardown_via_playerLeft ⟨["A"], ["A"]⟩ "A" ["B"]
      (by decide) (by decide)⟩

/-! ### C10: jump intent only applies when grounded -/

/-- C10: a consumed jump intent applies the upward jump velocity only
when the player is grounded: with `predictedY ≤ 0.001` the vertical
velocity becomes `JUMP_VELOCITY` and the position is nudged to 0.001;
when airborne the predicted state is untouched; the `jump` message is
sent to the server in both cases. -/
theorem jump_applies_only_when_grounded (st : PredState) :
    (st.predictedY ≤ 0.001 →
      (consumeJumpStep st).1.predictedYVel = JUMP_VELOCITY
      ∧ (consumeJumpStep st).1.predictedY = 0.001)
    ∧ (0.001 < st.predictedY → (consumeJumpStep st).1 = st)
    ∧ (consumeJumpStep st).2 = true := by
  unfold consumeJumpStep
  by_cases h : st.predictedY ≤ 0.001
  · rw [if_pos h]
    exact ⟨fun _ => ⟨rfl, rfl⟩, fun h2 => absurd h (not_le.mpr h2),
      rfl⟩
  · rw [if_neg h]
    exact ⟨fun h2 => absurd h2 h, fun _ => rfl, rfl⟩

/-- Witness for C10: a grounded player (height 0) pressing jump gets
vertical velocity `JUMP_VELOCITY` and height 0.001. -/
theorem jump_applies_only_when_grounded_witness :
    ((⟨0, 0, 0, 0, [], 0⟩ : PredState).predictedY ≤ 0.001)
    ∧ ((consumeJumpStep ⟨0, 0, 0, 0, [], 0⟩).1.predictedYVel
        = JUMP_VELOCITY
      ∧ (consumeJumpStep ⟨0, 0, 0, 0, [], 0⟩).1.predictedY = 0.001) :=
  ⟨by norm_num,
    (jump_applies_only_when_grounded ⟨0, 0, 0, 0, [], 0⟩).1
      (by norm_num)⟩

/-! ### C2: the arena clamp -/

/-- Output of the arena clamp always satisfies the arena bound (for any
radius of at least the 1-unit margin). -/
theorem clampArena_inBound (R : ℝ) (hR : 1 ≤ R) (p : ℝ × ℝ) :
    inArenaBound R (clampArena R p).1 (clampArena R p).2 := by
  have hR1 : (0:ℝ) ≤ R - 1 := by linarith
  unfold inArenaBound clampArena
  dsimp only
  split
  next h =>
    dsimp only
    have hd0 : (0:ℝ) ≤ Real.sqrt (p.1 * p.1 + p.2 * p.2) :=
      Real.sqrt_nonneg _
    have hdpos : (0:ℝ) < Real.sqrt (p.1 * p.1 + p.2 * p.2) :=
      lt_of_le_of_lt hR1 h
    have hs0 : (0:ℝ) ≤ (R - 1) / Real.sqrt (p.1 * p.1 + p.2 * p.2) :=
      div_nonneg hR1 hd0
    have heq : p.1 * ((R - 1) / Real.sqrt (p.1 * p.1 + p.2 * p.2))
          * (p.1 * ((R - 1) / Real.sqrt (p.1 * p.1 + p.2 * p.2)))
        + p.2 * ((R - 1) / Real.sqrt (p.1 * p.1 + p.2 * p.2))
          * (p.2 * ((R - 1) / Real.sqrt (p.1 * p.1 + p.2 * p.2)))
        = (p.1 * p.1 + p.2 * p.2)
          * ((R - 1) / Real.sqrt (p.1 * p.1 + p.2 * p.2)
            * ((R - 1) / Real.sqrt (p.1 * p.1 + p.2 * p.2))) := by
      ring
    rw [heq,
      Real.sqrt_mul (add_nonneg (mul_self_nonneg p.1)
        (mul_self_nonneg p.2)),
      Real.sqrt_mul_self hs0,
      mul_comm, div_mul_cancel₀ _ (ne_of_gt hdpos)]
  next h =>
    exact not_lt.mp h

/-- The movement-plus-clamp formula always lands within the arena
bound: it ends in the clamp. -/
theorem moveStep_inBound (R : ℝ) (hR : 1 ≤ R) (action : String)
    (forward right rotation dt : ℝ) (p : ℝ × ℝ) :
    inArenaBound R (moveStep R action forward right rotation dt p).1
      (moveStep R action forward right rotation dt p).2 :=
  clampArena_inBound R hR _

/-- Replaying any list of input records from a baseline within the
arena bound stays within the arena bound. -/
theorem foldl_moveStep_inBound (R : ℝ) (hR : 1 ≤ R) (action : String)
    (l : List InputRecord) (init : ℝ × ℝ)
    (h : inArenaBound R init.1 init.2) :
    inArenaBound R
      (l.foldl (fun p i => moveStep R action
        i.forward i.right i.rotation i.dt p) init).1
      (l.foldl (fun p i => moveStep R action
        i.forward i.right i.rotation i.dt p) init).2 := by
  induction l generalizing init with
  | nil => exact h
  | cons i l ih =>
    exact ih _ (moveStep_inBound R hR action
      i.forward i.right i.rotation i.dt init)

/-- Counterexample to C2 as stated: reconciliation resets the baseline
to the snapshot position verbatim without clamping it, so a snapshot at
x = 35 in an arena of radius 30 leaves the predicted position 35 units
from the origin, above the 29-unit bound, when no pending inputs remain
to replay. -/
theorem arena_bound_violated_after_baseline_reset :
    ¬ inArenaBound 30
      (reconcileWithServer 30 ⟨0, 0, 0, 0, [], 0⟩
        ⟨35, 0, 0, "idle", 0⟩).predictedX
      (reconcileWithServer 30 ⟨0, 0, 0, 0, [], 0⟩
        ⟨35, 0, 0, "idle", 0⟩).predictedZ := by
  have hx : (reconcileWithServer 30 ⟨0, 0, 0, 0, [], 0⟩
      ⟨35, 0, 0, "idle", 0⟩).predictedX = 35 := by
    rw [reconcile_x_eq]
    norm_num
  have hz : (reconcileWithServer 30 ⟨0, 0, 0, 0, [], 0⟩
      ⟨35, 0, 0, "idle", 0⟩).predictedZ = 0 := by
    rw [reconcile_z_eq]
    norm_num
  rw [hx, hz]
  unfold inArenaBound
  rw [show (35 : ℝ) * 35 + 0 * 0 = 35 * 35 by ring,
    Real.sqrt_mul_self (by norm_num : (0:ℝ) ≤ 35)]
  norm_num

/-- C2 amended: the arena bound `sqrt(x² + z²) ≤ arenaRadius − 1` holds
after every movement-plus-clamp step (hence after each replayed input),
is preserved by the prediction tick, and holds after reconciliation
whenever the snapshot itself satisfies it; the baseline reset copies the
snapshot position verbatim, so an out-of-bounds snapshot is not
clamped. -/
theorem arena_bound_preserved (R : ℝ) (action : String)
    (forward right rotation dt : ℝ) (jump : Bool) (p : ℝ × ℝ)
    (st : PredState) (sv : ServerPlayerState) (hR : 1 ≤ R) :
    inArenaBound R (moveStep R action forward right rotation dt p).1
      (moveStep R action forward right rotation dt p).2
    ∧ (inArenaBound R st.predictedX st.predictedZ →
      inArenaBound R
        (updateTick R action forward right rotation dt jump
          st).1.predictedX
        (updateTick R action forward right rotation dt jump
          st).1.predictedZ)
    ∧ (inArenaBound R sv.x sv.z →
      inArenaBound R (reconcileWithServer R st sv).predictedX
        (reconcileWithServer R st sv).predictedZ) := by
  refine ⟨moveStep_inBound R hR action forward right rotation dt p,
    ?_, ?_⟩
  · intro hst
    rw [(updateTick_xz R action forward right rotation dt jump st).1,
      (updateTick_xz R action forward right rotation dt jump st).2]
    unfold predictXZ
    split
    · exact moveStep_inBound R hR action forward right rotation dt _
    · exact hst
  · intro hsv
    rw [reconcile_x_eq, reconcile_z_eq]
    split
    · exact foldl_moveStep_inBound R hR sv.action _ (sv.x, sv.z) hsv
    · exact hsv

/-- Witness for the amended C2: in the default radius-30 arena a
concrete movement step and a concrete reconciliation from an in-bounds
snapshot both land within 29 units of the origin. -/
theorem arena_bound_preserved_witness :
    ((1 : ℝ) ≤ 30)
    ∧ inArenaBound 30 (moveStep 30 "idle" 1 0 0 (1/10) (0, 0)).1
      (moveStep 30 "idle" 1 0 0 (1/10) (0, 0)).2
    ∧ inArenaBound 30
      (reconcileWithServer 30 ⟨0, 0, 0, 0, [], 0⟩
        ⟨0, 0, 0, "idle", 0⟩).predictedX
      (reconcileWithServer 30 ⟨0, 0, 0, 0, [], 0⟩
        ⟨0, 0, 0, "idle", 0⟩).predictedZ := by
  refine ⟨by norm_num, ?_, ?_⟩
  · exact (arena_bound_preserved 30 "idle" 1 0 0 (1/10) false (0, 0)
      ⟨0, 0, 0, 0, [], 0⟩ ⟨0, 0, 0, "idle", 0⟩ (by norm_num)).1
  · refine (arena_bound_preserved 30 "idle" 1 0 0 (1/10) false (0, 0)
      ⟨0, 0, 0, 0, [], 0⟩ ⟨0, 0, 0, "idle", 0⟩ (by norm_num)).2.2 ?_
    unfold inArenaBound
    rw [show (0:ℝ) * 0 + 0 * 0 = 0 by ring, Real.sqrt_zero]
    norm_num

/-! ### C8: the forward-movement scenario -/

/-- C8: a local player at the origin with facing angle 0, a
movement-permitting action tag, input record `{forward: 1, right: 0}`,
tick duration 0.1 s and speed constant 8 is moved by one prediction
tick to x = 0, z = −0.8: forward is −z. -/
theorem forward_tick_moves_minus_z :
    (updateTick 30 "idle" 1 0 0 0.1 false
      ⟨0, 0, 0, 0, [], 0⟩).1.predictedX = 0
    ∧ (updateTick 30 "idle" 1 0 0 0.1 false
      ⟨0, 0, 0, 0, [], 0⟩).1.predictedZ = -0.8 := by
  have hmv : moveStep 30 "idle" 1 0 0 0.1 ((0 : ℝ), (0 : ℝ))
      = (0, -0.8) := by
    unfold moveStep clampArena
    rw [Real.sin_zero, Real.cos_zero]
    norm_num [PLAYER_SPEED,
      show ("idle" : String) ≠ "blocking" from by decide]
    have h16 : Real.sqrt 16 = 4 := by
      rw [show (16 : ℝ) = 4 * 4 by norm_num,
        Real.sqrt_mul_self (by norm_num)]
    have h25 : Real.sqrt 25 = 5 := by
      rw [show (25 : ℝ) = 5 * 5 by norm_num,
        Real.sqrt_mul_self (by norm_num)]
    rw [h16, h25]
    norm_num
  have hpx : predictXZ 30 "idle" 1 0 0 0.1 ((0 : ℝ), (0 : ℝ))
      = (0, -0.8) := by
    unfold predictXZ
    rw [if_pos ⟨⟨by decide, by decide⟩, Or.inl one_ne_zero⟩, hmv]
  have hproj : (((⟨0, 0, 0, 0, [], 0⟩ : PredState)).predictedX,
      ((⟨0, 0, 0, 0, [], 0⟩ : PredState)).predictedZ)
      = ((0 : ℝ), (0 : ℝ)) := rfl
  constructor
  · rw [(updateTick_xz 30 "idle" 1 0 0 0.1 false
      ⟨0, 0, 0, 0, [], 0⟩).1, hproj, hpx]
  · rw [(updateTick_xz 30 "idle" 1 0 0 0.1 false
      ⟨0, 0, 0, 0, [], 0⟩).2, hproj, hpx]

/-! ### C6: the outbound throttle -/

/-- Every transmitted timestamp was one of the calls: the throttle
drops early calls, it never queues or invents sends. -/
theorem throttle_sent_subset : ∀ (l : List ℚ) (st : ℚ × List ℚ) (t : ℚ),
    t ∈ (l.foldl sendThrottledStep st).2 → t ∈ st.2 ∨ t ∈ l := by
  intro l
  induction l with
  | nil => intro st t ht; exact Or.inl ht
  | cons now l ih =>
    intro st t ht
    rw [List.foldl_cons] at ht
    rcases ih (sendThrottledStep st now) t ht with h | h
    · unfold sendThrottledStep at h
      by_cases hg : MIN_SEND_INTERVAL ≤ now - st.1
      · rw [if_pos hg] at h
        rcases List.mem_append.mp h with h2 | h2
        · exact Or.inl h2
        · right
          rw [List.mem_singleton.mp h2]
          exact List.mem_cons_self _ _
      · rw [if_neg hg] at h
        exact Or.inl h
    · exact Or.inr (List.mem_cons_of_mem _ h)

/-- Fold invariant of the throttle: successive transmitted timestamps
are at least `MIN_SEND_INTERVAL` apart, and `lastSendTime` is the last
transmitted timestamp (when any exists). -/
theorem throttle_chain_inv : ∀ (l : List ℚ) (st : ℚ × List ℚ),
    List.Chain' (fun x y => x + MIN_SEND_INTERVAL ≤ y) st.2 →
    (st.2 = [] ∨ st.2.getLast? = some st.1) →
    List.Chain' (fun x y => x + MIN_SEND_INTERVAL ≤ y)
      (l.foldl sendThrottledStep st).2
    ∧ ((l.foldl sendThrottledStep st).2 = []
      ∨ (l.foldl sendThrottledStep st).2.getLast?
          = some (l.foldl sendThrottledStep st).1) := by
  intro l
  induction l with
  | nil => intro st h1 h2; exact ⟨h1, h2⟩
  | cons now l ih =>
    intro st h1 h2
    rw [List.foldl_cons]
    by_cases hg : MIN_SEND_INTERVAL ≤ now - st.1
    · have hstep : sendThrottledStep st now = (now, st.2 ++ [now]) := by
        unfold sendThrottledStep
        rw [if_pos hg]
      rw [hstep]
      refine ih (now, st.2 ++ [now]) ?_ ?_
      · show List.Chain' _ (st.2 ++ [now])
        rcases h2 with h2 | h2
        · rw [h2]
          simp
        · rw [List.chain'_append]
          refine ⟨h1, List.chain'_singleton _, ?_⟩
          intro x hx y hy
          rw [h2] at hx
          simp at hx hy
          rw [← hx, ← hy]
          linarith
      · right
        show (st.2 ++ [now]).getLast? = some now
        simp
    · have hstep : sendThrottledStep st now = st := by
        unfold sendThrottledStep
        rw [if_neg hg]
      rw [hstep]
      exact ih st h1 h2

/-- In a gap-chained list of timestamps the last element is at least
the interval times the chain length above the head. -/
theorem throttle_chain_last_ge : ∀ (t : List ℚ) (x y : ℚ),
    List.Chain' (fun a b => a + MIN_SEND_INTERVAL ≤ b) (x :: t) →
    (x :: t).getLast? = some y →
    x + MIN_SEND_INTERVAL * t.length ≤ y := by
  intro t
  induction t with
  | nil =>
    intro x y _ hy
    simp at hy
    rw [hy]
    simp
  | cons z t ih =>
    intro x y hc hy
    have h1 : x + MIN_SEND_INTERVAL ≤ z := (List.chain'_cons.mp hc).1
    have h2 := ih z y (List.chain'_cons.mp hc).2 hy
    rw [List.length_cons]
    push_cast
    push_cast at h2
    linarith

/-- A gap-chained list of timestamps inside a window of width `W`
holds at most `⌊W / interval⌋ + 1` elements. -/
theorem throttle_window_length (l : List ℚ) (a W : ℚ)
    (hc : List.Chain' (fun x y => x + MIN_SEND_INTERVAL ≤ y) l)
    (hin : ∀ x ∈ l, a ≤ x ∧ x ≤ a + W) :
    l.length ≤ (Int.floor (W / MIN_SEND_INTERVAL)).toNat + 1 := by
  cases l with
  | nil => simp
  | cons x t =>
    have hy : (x :: t).getLast? = some ((x :: t).getLast (by simp)) :=
      List.getLast?_eq_getLast _ _
    have hlast := throttle_chain_last_ge t x _ hc hy
    have hx := hin x (List.mem_cons_self _ _)
    have hyin := hin _ (List.getLast_mem (l := x :: t) (by simp))
    have hlen : (t.length : ℚ) * MIN_SEND_INTERVAL ≤ W := by
      unfold MIN_SEND_INTERVAL at hlast ⊢
      linarith [hx.1, hyin.2, hlast]
    have hdiv : (t.length : ℚ) ≤ W / MIN_SEND_INTERVAL := by
      rw [le_div_iff₀ (by norm_num [MIN_SEND_INTERVAL])]
      exact hlen
    have hfloor : (t.length : ℤ) ≤ Int.floor (W / MIN_SEND_INTERVAL) := by
      rw [Int.le_floor]
      exact_mod_cast hdiv
    rw [List.length_cons]
    omega

/-- Counterexample to C6 as stated: the throttle lets transmissions sit
exactly the interval apart, so the calls at 100, 116 and 132 ms — all
inside a closed window of width 32 ms — are all three transmitted,
exceeding the claimed ceiling `⌈32 / 16⌉ = 2`. -/
theorem throttle_ceiling_counterexample :
    (throttleRun [100, 116, 132]).2.length = 3
    ∧ Int.ceil (((132 : ℚ) - 100) / MIN_SEND_INTERVAL) = 2
    ∧ ¬((throttleRun [100, 116, 132]).2.length
        ≤ (Int.ceil (((132 : ℚ) - 100) / MIN_SEND_INTERVAL)).toNat) := by
  have h1 : (throttleRun [100, 116, 132]).2.length = 3 := by
    norm_num [throttleRun, sendThrottledStep, MIN_SEND_INTERVAL]
  have h2 : Int.ceil (((132 : ℚ) - 100) / MIN_SEND_INTERVAL) = 2 := by
    norm_num [MIN_SEND_INTERVAL]
  refine ⟨h1, h2, ?_⟩
  rw [h1, h2]
  norm_num

/-- C6 amended: a `sendThrottled` call arriving less than
`MIN_SEND_INTERVAL` after the last transmission leaves the state
unchanged (dropped, never queued); across any run, consecutive
transmitted timestamps are at least the interval apart, so calls
confined to a window of width `W` yield at most `⌊W / interval⌋ + 1`
transmissions (the claimed `⌈W / interval⌉` fails when `W` is an exact
multiple of the interval). -/
theorem sendThrottled_min_interval (calls : List ℚ) (a W : ℚ)
    (st : ℚ × List ℚ) (now : ℚ)
    (hin : ∀ t ∈ calls, a ≤ t ∧ t ≤ a + W)
    (hdrop : now - st.1 < MIN_SEND_INTERVAL) :
    sendThrottledStep st now = st
    ∧ List.Chain' (fun x y => x + MIN_SEND_INTERVAL ≤ y)
        (throttleRun calls).2
    ∧ (throttleRun calls).2.length
        ≤ (Int.floor (W / MIN_SEND_INTERVAL)).toNat + 1 := by
  have hchain :=
    (throttle_chain_inv calls (0, []) (by simp) (Or.inl rfl)).1
  refine ⟨?_, hchain, ?_⟩
  · unfold sendThrottledStep
    rw [if_neg (not_le.mpr hdrop)]
  · refine throttle_window_length _ a W hchain ?_
    intro x hx
    rcases throttle_sent_subset calls (0, []) x hx with h | h
    · simp at h
    · exact hin x h

/-- Witness for the amended C6: calls at 100, 105 and 120 ms inside the
window [100, 120] produce two transmissions, within the
`⌊20 / 16⌋ + 1 = 2` bound, and a call 10 ms after a transmission is
dropped with the state unchanged. -/
theorem sendThrottled_min_interval_witness :
    (∀ t ∈ [(100 : ℚ), 105, 120], 100 ≤ t ∧ t ≤ 100 + 20)
    ∧ ((110 : ℚ) - ((100 : ℚ), ([] : List ℚ)).1 < MIN_SEND_INTERVAL)
    ∧ (sendThrottledStep (100, []) 110 = (100, [])
      ∧ List.Chain' (fun x y => x + MIN_SEND_INTERVAL ≤ y)
          (throttleRun [100, 105, 120]).2
      ∧ (throttleRun [100, 105, 120]).2.length
          ≤ (Int.floor ((20 : ℚ) / MIN_SEND_INTERVAL)).toNat + 1) :=
  ⟨by norm_num, by norm_num [MIN_SEND_INTERVAL],
    sendThrottled_min_interval [100, 105, 120] 100 20 (100, []) 110
      (by norm_num) (by norm_num [MIN_SEND_INTERVAL])⟩

end ArenaClash
